import Mathlib

/-!
Shallow embedding of the MMM-Birthday module (MMM-Birthday.js, fireworks.js:
the Fireworks class and the Confetti IIFE) and proofs about the claims of the
specification.

Times and pixel quantities are modelled as rationals (JavaScript numbers used
only through +, *, -, comparisons), except the confetti particle physics,
which uses Math.sqrt and is therefore modelled over the reals.  Randomness
(Math.random() calls) is modelled as explicit inputs in [0, 1).
-/

/-! ## Celebration lifecycle controller (MMM-Birthday.js) -/

/-- One configured birthday entry: `{name: "Anna", date: "12-25"}`. -/
structure Birthday where
  name : String
  date : String
deriving DecidableEq

/-- The controller state of the module as initialized by `start` and mutated
by `checkBirthdays` / `suspend` / `resume` / `stopCelebration`.
`wasCelebrating` models the `_wasCelebrating` field; `wrapperVisible` models
the display style of the `.birthday-module` wrapper (`block` / `none`);
`lastName` is the argument passed to the most recent `celebrateBirthday`
call (`none` models JavaScript `undefined`); `celebrationStarts` counts the
invocations of `celebrateBirthday` (the full celebration start sequence). -/
structure ModuleState where
  celebrating : Bool
  wasCelebrating : Bool
  wrapperVisible : Bool
  fireworksCreated : Bool
  lastName : Option String
  celebrationStarts : Nat
deriving DecidableEq

/-- State set up by `start` (lines 69-93): both flags false, nothing shown. -/
def initialState : ModuleState :=
  { celebrating := false
    wasCelebrating := false
    wrapperVisible := false
    fireworksCreated := false
    lastName := none
    celebrationStarts := 0 }

/-- `celebrateBirthday(name)` (lines 223-252): lazily constructs the
fireworks emitter, shows the wrapper (`display = 'block'`), renders the
message personalised with `name`, and starts both emitters.  The emitters
themselves are modelled separately; here we record the controller-visible
effects. -/
def celebrateBirthday (name : Option String) (s : ModuleState) : ModuleState :=
  { s with
    fireworksCreated := true
    wrapperVisible := true
    lastName := name
    celebrationStarts := s.celebrationStarts + 1 }

/-- `checkBirthdays` (lines 173-189): for each configured birthday whose date
matches the current date, if neither `celebrating` nor `_wasCelebrating` is
set, set `celebrating` and invoke `celebrateBirthday(birthday.name)`. -/
def checkBirthdays (birthdays : List Birthday) (currentDate : String)
    (s : ModuleState) : ModuleState :=
  birthdays.foldl
    (fun st b =>
      if b.date = currentDate ∧ st.celebrating = false ∧ st.wasCelebrating = false then
        celebrateBirthday (some b.name) { st with celebrating := true }
      else st)
    s

/-- `suspend` (lines 99-124): if celebrating, remember that via
`_wasCelebrating := true`, tear down the emitters, hide the wrapper
(`display = 'none'`) and clear `celebrating`. -/
def suspend (s : ModuleState) : ModuleState :=
  if s.celebrating = true then
    { s with wasCelebrating := true, wrapperVisible := false, celebrating := false }
  else s

/-- `resume` (lines 130-145): if `_wasCelebrating`, set `celebrating`, clear
`_wasCelebrating`, show the wrapper (`display = 'block'`) and call
`this.celebrateBirthday()` — note: with no argument, so the restarted
celebration's name is `undefined` (modelled as `none`). -/
def resume (s : ModuleState) : ModuleState :=
  if s.wasCelebrating = true then
    celebrateBirthday none
      { s with celebrating := true, wasCelebrating := false, wrapperVisible := true }
  else s

/-- `stopCelebration` (lines 288-310): hide the wrapper, clear both flags and
tear down the emitters. -/
def stopCelebration (s : ModuleState) : ModuleState :=
  { s with wrapperVisible := false, celebrating := false, wasCelebrating := false }

/-- One externally triggered controller entry point. -/
inductive ControllerOp where
  | check (birthdays : List Birthday) (currentDate : String)
  | susp
  | res
  | stop

/-- Apply one entry point to a controller state. -/
def applyOp (s : ModuleState) : ControllerOp → ModuleState
  | .check bs d => checkBirthdays bs d s
  | .susp => suspend s
  | .res => resume s
  | .stop => stopCelebration s

/-- Run a sequence of entry points from the initial state. -/
def runOps (ops : List ControllerOp) : ModuleState :=
  ops.foldl applyOp initialState

/-- The two session flags are never both set. -/
def flagsOk (s : ModuleState) : Prop :=
  s.celebrating = false ∨ s.wasCelebrating = false

lemma flagsOk_checkBirthdays (bs : List Birthday) (d : String) (s : ModuleState)
    (h : flagsOk s) : flagsOk (checkBirthdays bs d s) := by
  induction bs generalizing s with
  | nil => exact h
  | cons b bs ih =>
    unfold checkBirthdays
    rw [List.foldl_cons]
    apply ih
    by_cases hc : b.date = d ∧ s.celebrating = false ∧ s.wasCelebrating = false
    · rw [if_pos hc]
      exact Or.inr hc.2.2
    · rw [if_neg hc]
      exact h

lemma flagsOk_applyOp (s : ModuleState) (op : ControllerOp) (h : flagsOk s) :
    flagsOk (applyOp s op) := by
  cases op with
  | check bs d => exact flagsOk_checkBirthdays bs d s h
  | susp =>
    unfold applyOp suspend
    by_cases hc : s.celebrating = true
    · rw [if_pos hc]; exact Or.inl rfl
    · rw [if_neg hc]; exact h
  | res =>
    unfold applyOp resume
    by_cases hc : s.wasCelebrating = true
    · rw [if_pos hc]; exact Or.inr rfl
    · rw [if_neg hc]; exact h
  | stop => exact Or.inl rfl

lemma flagsOk_foldl (ops : List ControllerOp) (s : ModuleState) (h : flagsOk s) :
    flagsOk (ops.foldl applyOp s) := by
  induction ops generalizing s with
  | nil => exact h
  | cons op ops ih =>
    rw [List.foldl_cons]
    exact ih _ (flagsOk_applyOp s op h)

/-- Claim C10: the controller's two session flags are mutually exclusive — in
every state reachable from the initial state via any sequence of
`checkBirthdays`, `suspend`, `resume`, and `stopCelebration` calls,
`celebrating` and `_wasCelebrating` are never both true (stated as: at least
one of them is false). -/
theorem controller_flags_mutually_exclusive (ops : List ControllerOp) :
    (runOps ops).celebrating = false ∨ (runOps ops).wasCelebrating = false :=
  flagsOk_foldl ops initialState (Or.inl rfl)

/-- Claim C1: a birthday trigger is accepted only when the controller is
idle — if `celebrating` or `_wasCelebrating` is true, `checkBirthdays`
leaves the state unchanged: the trigger is dropped, no second celebration
start sequence runs, and at most one celebration session stays active. -/
theorem checkBirthdays_busy_drops_trigger (birthdays : List Birthday)
    (currentDate : String) (s : ModuleState)
    (h : s.celebrating = true ∨ s.wasCelebrating = true) :
    checkBirthdays birthdays currentDate s = s ∧
      (checkBirthdays birthdays currentDate s).celebrationStarts =
        s.celebrationStarts := by
  have key : checkBirthdays birthdays currentDate s = s := by
    induction birthdays with
    | nil => rfl
    | cons b bs ih =>
      unfold checkBirthdays at ih ⊢
      rw [List.foldl_cons]
      have hstep :
          (if b.date = currentDate ∧ s.celebrating = false ∧ s.wasCelebrating = false then
            celebrateBirthday (some b.name) { s with celebrating := true }
          else s) = s := by
        rw [if_neg]
        rintro ⟨-, h2, h3⟩
        rcases h with h1 | h1
        · rw [h1] at h2; exact absurd h2 (by simp)
        · rw [h1] at h3; exact absurd h3 (by simp)
      rw [hstep]
      exact ih
  exact ⟨key, by rw [key]⟩

/-- Witness for C1 at a concrete busy state: celebrating, with one matching
configured birthday; the check is a no-op. -/
theorem checkBirthdays_busy_drops_trigger_witness :
    ((⟨true, false, true, true, some "Anna", 1⟩ : ModuleState).celebrating = true ∨
      (⟨true, false, true, true, some "Anna", 1⟩ : ModuleState).wasCelebrating = true) ∧
    (checkBirthdays [⟨"Anna", "12-25"⟩] "12-25"
        ⟨true, false, true, true, some "Anna", 1⟩ =
      ⟨true, false, true, true, some "Anna", 1⟩ ∧
      (checkBirthdays [⟨"Anna", "12-25"⟩] "12-25"
          ⟨true, false, true, true, some "Anna", 1⟩).celebrationStarts =
        (⟨true, false, true, true, some "Anna", 1⟩ : ModuleState).celebrationStarts) :=
  ⟨Or.inl rfl,
    checkBirthdays_busy_drops_trigger [⟨"Anna", "12-25"⟩] "12-25"
      ⟨true, false, true, true, some "Anna", 1⟩ (Or.inl rfl)⟩

/-- Claim C3 (code evaluated at the failing input): trigger a celebration for
"Anna" on a matching date, suspend, then resume.  Resume does restore the
wrapper visibility and re-enter the celebrating state and re-run the start
sequence — but `resume` invokes `this.celebrateBirthday()` with no argument,
so the restarted celebration's name is `undefined` (`none`), not "Anna" as
the claim states. -/
theorem resume_restarts_without_name :
    (checkBirthdays [⟨"Anna", "12-25"⟩] "12-25" initialState).celebrating = true ∧
    (checkBirthdays [⟨"Anna", "12-25"⟩] "12-25" initialState).lastName = some "Anna" ∧
    (suspend (checkBirthdays [⟨"Anna", "12-25"⟩] "12-25" initialState)).celebrating
      = false ∧
    (suspend (checkBirthdays [⟨"Anna", "12-25"⟩] "12-25" initialState)).wasCelebrating
      = true ∧
    (suspend (checkBirthdays [⟨"Anna", "12-25"⟩] "12-25" initialState)).wrapperVisible
      = false ∧
    (resume (suspend (checkBirthdays [⟨"Anna", "12-25"⟩] "12-25"
        initialState))).celebrating = true ∧
    (resume (suspend (checkBirthdays [⟨"Anna", "12-25"⟩] "12-25"
        initialState))).wrapperVisible = true ∧
    (resume (suspend (checkBirthdays [⟨"Anna", "12-25"⟩] "12-25"
        initialState))).celebrationStarts = 2 ∧
    (resume (suspend (checkBirthdays [⟨"Anna", "12-25"⟩] "12-25"
        initialState))).lastName = none := by
  decide

/-! ## Fireworks emitter (fireworks.js, class Fireworks) -/

/-- The `Fireworks` instance state the claims are about: `endTime` (a
timestamp in milliseconds; `none` models the `Infinity` sentinel used for
`"infinite"` durations) and the counts of `.rocket` / `.spark` elements
currently in the document. -/
structure FireworksState where
  endTime : Option ℚ
  rockets : Nat
  sparks : Nat
deriving DecidableEq

/-- `Fireworks.start` (lines 196-210) sets
`this.endTime = duration === "infinite" ? Infinity : Date.now() + duration`.
`duration` is modelled as `Option ℚ` with `none` for the string
`"infinite"`. -/
def fwStartEnd (duration : Option ℚ) (now : ℚ) : Option ℚ :=
  match duration with
  | none => none
  | some d => some (now + d)

/-- The guard `Date.now() < this.endTime` of `launchNext`; comparison with
the `Infinity` sentinel (`none`) is always true. -/
def beforeEnd (endTime : Option ℚ) (now : ℚ) : Bool :=
  match endTime with
  | none => true
  | some e => decide (now < e)

/-- One run of the `launchNext` callback: if `Date.now() < this.endTime`,
it launches (first component) and schedules the next callback (second
component); otherwise it does neither and the chain terminates. -/
def launchNextStep (endTime : Option ℚ) (now : ℚ) : Bool × Bool :=
  if beforeEnd endTime now then (true, true) else (false, false)

/-- The self-rescheduling launch chain of `Fireworks.start`: from time `now`,
with the observed random inter-launch delays `ds` (each
`Math.random() * 800 + 200`), the list of times at which `this.launch()`
runs.  Each callback re-checks `Date.now() < this.endTime` and, when it
passes, launches and reschedules itself after the next delay. -/
def launchChain (endTime : Option ℚ) : ℚ → List ℚ → List ℚ
  | now, [] => if beforeEnd endTime now then [now] else []
  | now, d :: ds =>
    if beforeEnd endTime now then now :: launchChain endTime (now + d) ds
    else []

/-- `Fireworks.launch` (lines 171-189) horizontal position:
`Math.random() * (window.innerWidth - 100) + 50`. -/
def launchX (w r : ℚ) : ℚ :=
  r * (w - 100) + 50

/-- `Fireworks.cleanup` (lines 216-224): set `endTime` to `0` (a past
timestamp) and remove every `.rocket` and `.spark` element from the
document.  Total — safe to call with no activity in progress. -/
def fwCleanup (_s : FireworksState) : FireworksState :=
  { endTime := some 0, rockets := 0, sparks := 0 }

lemma launchChain_mem_lt (e : ℚ) (now : ℚ) (ds : List ℚ) :
    ∀ t ∈ launchChain (some e) now ds, t < e := by
  induction ds generalizing now with
  | nil =>
    intro t ht
    unfold launchChain at ht
    by_cases hc : now < e
    · have : beforeEnd (some e) now = true := by simp [beforeEnd, hc]
      rw [this, if_pos rfl] at ht
      rcases List.mem_singleton.mp ht with rfl
      exact hc
    · have : beforeEnd (some e) now = false := by simp [beforeEnd, hc]
      rw [this] at ht
      simp at ht
  | cons d ds ih =>
    intro t ht
    unfold launchChain at ht
    by_cases hc : now < e
    · have : beforeEnd (some e) now = true := by simp [beforeEnd, hc]
      rw [this, if_pos rfl] at ht
      rcases List.mem_cons.mp ht with rfl | hmem
      · exact hc
      · exact ih (now + d) t hmem
    · have : beforeEnd (some e) now = false := by simp [beforeEnd, hc]
      rw [this] at ht
      simp at ht

/-- Claim C2: for a finite duration `d`, once the current time is at or past
`start + d`, the launch chain of a started fireworks emitter performs no
further launch and schedules no further callback (the next scheduling check
terminates it), and every launch the chain ever performs happens strictly
before the end time. -/
theorem fireworks_chain_stops_at_deadline (t0 d now : ℚ) (ds : List ℚ)
    (h : t0 + d ≤ now) :
    launchNextStep (fwStartEnd (some d) t0) now = (false, false) ∧
    launchChain (fwStartEnd (some d) t0) now ds = [] ∧
    ∀ t ∈ launchChain (fwStartEnd (some d) t0) t0 ds, t < t0 + d := by
  have hb : beforeEnd (fwStartEnd (some d) t0) now = false := by
    simp only [fwStartEnd, beforeEnd, decide_eq_false_iff_not]
    exact not_lt.mpr h
  refine ⟨?_, ?_, ?_⟩
  · unfold launchNextStep
    rw [hb]
    simp
  · cases ds with
    | nil => unfold launchChain; rw [hb]; simp
    | cons d0 ds => unfold launchChain; rw [hb]; simp
  · exact launchChain_mem_lt (t0 + d) t0 ds

/-- Witness for C2: a 1000 ms duration started at time 0, checked at time
1000 — no launch, no rescheduling. -/
theorem fireworks_chain_stops_at_deadline_witness :
    ((0 : ℚ) + 1000 ≤ 1000) ∧
    (launchNextStep (fwStartEnd (some 1000) 0) 1000 = (false, false) ∧
      launchChain (fwStartEnd (some 1000) 0) 1000 [300] = [] ∧
      ∀ t ∈ launchChain (fwStartEnd (some 1000) 0) 0 [300], t < (0 : ℚ) + 1000) :=
  ⟨by norm_num, fireworks_chain_stops_at_deadline 0 1000 1000 [300] (by norm_num)⟩

/-- Claim C9 (counterexample): the claim says the launch position is clamped
to a minimum valid range for every viewport width, including widths smaller
than the 100px margins.  The code does no clamping: at width 0 with random
draw 3/4 the computed position is -25, a negative position outside any valid
on-screen range. -/
theorem launch_position_not_clamped :
    launchX 0 (3 / 4) = -25 ∧ launchX 0 (3 / 4) < 0 := by
  constructor <;> norm_num [launchX]

/-- Claim C9 (amended): the position computation is total over the rationals
(never NaN, never fails), and for every viewport width of at least the
100px combined margins and every random draw in [0, 1) the position lies in
[50, w - 50], hence inside the viewport [0, w]; for narrower widths no
clamping is performed and the position may be negative. -/
theorem launch_position_in_range (w r : ℚ) (hw : 100 ≤ w) (h0 : 0 ≤ r)
    (h1 : r < 1) :
    50 ≤ launchX w r ∧ launchX w r ≤ w - 50 ∧
      0 ≤ launchX w r ∧ launchX w r ≤ w := by
  unfold launchX
  have hwn : (0 : ℚ) ≤ w - 100 := by linarith
  have hmul0 : 0 ≤ r * (w - 100) := mul_nonneg h0 hwn
  have hmul1 : r * (w - 100) ≤ w - 100 := by nlinarith
  refine ⟨by linarith, by linarith, by linarith, by linarith⟩

/-- Witness for C9 (amended) at width 200 and random draw 1/2: the position
is 150, inside [50, 150] and inside the viewport. -/
theorem launch_position_in_range_witness :
    ((100 : ℚ) ≤ 200) ∧ ((0 : ℚ) ≤ 1 / 2) ∧ ((1 / 2 : ℚ) < 1) ∧
    (50 ≤ launchX 200 (1 / 2) ∧ launchX 200 (1 / 2) ≤ 200 - 50 ∧
      0 ≤ launchX 200 (1 / 2) ∧ launchX 200 (1 / 2) ≤ 200) :=
  ⟨by norm_num, by norm_num, by norm_num,
    launch_position_in_range 200 (1 / 2) (by norm_num) (by norm_num) (by norm_num)⟩

/-! ## Fireworks explosion (createExplosion / createSpark) -/

/-- One spark of an explosion.  `duration` is the transition duration in
seconds, `distance` the translation magnitude in pixels. -/
structure Spark where
  angle : ℚ
  velocity : ℚ
  duration : ℚ
  distance : ℚ
deriving DecidableEq

/-- `Fireworks.createSpark` (lines 123-150): the numeric content —
`duration = 0.8 + Math.random() * 0.6` and
`distance = velocity * (0.7 + Math.random() * 0.3)`; `rDuration` and
`rDistance` are the two random draws. -/
def createSpark (angle velocity rDuration rDistance : ℚ) : Spark :=
  { angle := angle
    velocity := velocity
    duration := 0.8 + rDuration * 0.6
    distance := velocity * (0.7 + rDistance * 0.3) }

/-- The spark created at loop index `i` of `Fireworks.createExplosion`
(lines 152-169): `angle = (i * 360) / particleCount + Math.random() * 20`
and `velocity = 100 + Math.random() * 100`, with `particleCount = 80`. -/
def explosionSpark (i : Nat) (rAngle rVelocity rDuration rDistance : ℚ) : Spark :=
  createSpark ((i * 360) / 80 + rAngle * 20) (100 + rVelocity * 100)
    rDuration rDistance

/-- `Fireworks.createExplosion` (lines 152-169): the 80 sparks created by the
loop, with per-index random draws. -/
def createExplosion (rAngle rVelocity rDuration rDistance : Nat → ℚ) : List Spark :=
  (List.range 80).map
    (fun i => explosionSpark i (rAngle i) (rVelocity i) (rDuration i) (rDistance i))

/-- Claim C5: every explosion consists of exactly 80 sparks — precisely the
sparks at loop indices 0..79; spark `i`'s angle deviates from the evenly
spaced multiple `i * 360 / 80` by a jitter of magnitude at most 20 degrees
(the jitter is in fact in [0, 20)), its velocity lies in [100, 200), and its
translation distance is the velocity scaled by a factor in the 0.7-1.0
range. -/
theorem createExplosion_eighty_jittered_sparks
    (rAngle rVelocity rDuration rDistance : Nat → ℚ)
    (h : ∀ i, 0 ≤ rAngle i ∧ rAngle i < 1 ∧ 0 ≤ rVelocity i ∧ rVelocity i < 1 ∧
      0 ≤ rDistance i ∧ rDistance i < 1) :
    (createExplosion rAngle rVelocity rDuration rDistance).length = 80 ∧
    (∀ sp ∈ createExplosion rAngle rVelocity rDuration rDistance, ∃ i, i < 80 ∧
      sp = explosionSpark i (rAngle i) (rVelocity i) (rDuration i) (rDistance i)) ∧
    (∀ i, i < 80 →
      explosionSpark i (rAngle i) (rVelocity i) (rDuration i) (rDistance i) ∈
        createExplosion rAngle rVelocity rDuration rDistance ∧
      |(explosionSpark i (rAngle i) (rVelocity i) (rDuration i)
          (rDistance i)).angle - (i * 360) / 80| ≤ 20 ∧
      100 ≤ (explosionSpark i (rAngle i) (rVelocity i) (rDuration i)
        (rDistance i)).velocity ∧
      (explosionSpark i (rAngle i) (rVelocity i) (rDuration i)
        (rDistance i)).velocity < 200 ∧
      (explosionSpark i (rAngle i) (rVelocity i) (rDuration i)
          (rDistance i)).distance =
        (explosionSpark i (rAngle i) (rVelocity i) (rDuration i)
          (rDistance i)).velocity * (0.7 + rDistance i * 0.3) ∧
      0.7 ≤ 0.7 + rDistance i * 0.3 ∧ 0.7 + rDistance i * 0.3 < 1) := by
  obtain hlen : (createExplosion rAngle rVelocity rDuration rDistance).length = 80 := by
    simp [createExplosion]
  refine ⟨hlen, ?_, ?_⟩
  · intro sp hsp
    unfold createExplosion at hsp
    obtain ⟨i, hi, rfl⟩ := List.mem_map.mp hsp
    exact ⟨i, List.mem_range.mp hi, rfl⟩
  · intro i hi
    obtain ⟨ha0, ha1, hv0, hv1, hd0, hd1⟩ := h i
    refine ⟨?_, ?_, ?_, ?_, rfl, ?_, ?_⟩
    · exact List.mem_map.mpr ⟨i, List.mem_range.mpr hi, rfl⟩
    · have : (explosionSpark i (rAngle i) (rVelocity i) (rDuration i)
          (rDistance i)).angle - (i * 360) / 80 = rAngle i * 20 := by
        simp [explosionSpark, createSpark]
      rw [this, abs_of_nonneg (by nlinarith)]
      nlinarith
    · simp only [explosionSpark, createSpark]
      nlinarith
    · simp only [explosionSpark, createSpark]
      nlinarith
    · nlinarith
    · nlinarith

/-- Witness for C5 with all random draws equal to 1/2. -/
theorem createExplosion_eighty_jittered_sparks_witness :
    (∀ i : Nat, 0 ≤ (fun _ : Nat => (1 / 2 : ℚ)) i ∧
      (fun _ : Nat => (1 / 2 : ℚ)) i < 1 ∧
      0 ≤ (fun _ : Nat => (1 / 2 : ℚ)) i ∧ (fun _ : Nat => (1 / 2 : ℚ)) i < 1 ∧
      0 ≤ (fun _ : Nat => (1 / 2 : ℚ)) i ∧ (fun _ : Nat => (1 / 2 : ℚ)) i < 1) ∧
    (createExplosion (fun _ => 1 / 2) (fun _ => 1 / 2) (fun _ => 1 / 2)
        (fun _ => 1 / 2)).length = 80 :=
  ⟨fun _ => by norm_num,
    (createExplosion_eighty_jittered_sparks (fun _ => 1 / 2) (fun _ => 1 / 2)
      (fun _ => 1 / 2) (fun _ => 1 / 2) (fun _ => by norm_num)).1⟩

/-! ## Confetti particle physics (fireworks.js, Confetti IIFE, class Particle)

The particle physics uses Math.sqrt, so it is modelled over the reals. -/

/-- The per-particle state of the confetti `Particle` class (constructor
lines 248-278).  `gravity` and `drag` are instance fields (0.25 and 0.045 at
construction); `opacity` is reassigned by each `update()`. -/
structure ParticleR where
  x : ℝ
  y : ℝ
  vx : ℝ
  vy : ℝ
  gravity : ℝ
  drag : ℝ
  wobble : ℝ
  wobbleSpeed : ℝ
  size : ℝ
  opacity : ℝ

/-- The velocity-magnitude-based fade of `Particle.update`:
`Math.min(1, Math.sqrt(vx * vx + vy * vy) / 6)`. -/
noncomputable def velocityFadeR (vx vy : ℝ) : ℝ :=
  min 1 (Real.sqrt (vx * vx + vy * vy) / 6)

/-- The height-based fade of `Particle.update`:
`1 - Math.max(0, (y - height * 0.95) / (height * 0.05))`. -/
noncomputable def heightFadeR (h y : ℝ) : ℝ :=
  1 - max 0 ((y - h * 0.95) / (h * 0.05))

/-- `Particle.update` (lines 280-302): advance position by velocity, apply
gravity, apply multiplicative drag to both components, advance the wobble,
and assign `opacity = Math.min(velocityFade, heightFade)` computed from the
updated velocity and position. -/
noncomputable def updateR (h : ℝ) (p : ParticleR) : ParticleR :=
  let x := p.x + p.vx
  let y := p.y + p.vy
  let vyg := p.vy + p.gravity
  let vx1 := p.vx * (1 - p.drag)
  let vy1 := vyg * (1 - p.drag)
  let wobble := p.wobble + p.wobbleSpeed
  { p with
    x := x
    y := y
    vx := vx1
    vy := vy1
    wobble := wobble
    opacity := min (velocityFadeR vx1 vy1) (heightFadeR h y) }

/-- The value returned by `Particle.update` on the updated particle:
`this.opacity > 0.1 && this.y < height`. -/
def aliveR (h : ℝ) (p : ParticleR) : Prop :=
  0.1 < p.opacity ∧ p.y < h

/-- Claim C6 (counterexample): the claim says the opacity assigned by the
update always lies within [0, 1].  It does not: for a particle one tick away
from leaving a viewport of height 100 (y = 99, vy = 30, the constructor's
gravity 0.25 and drag 0.045), the updated y is 129 and the assigned opacity
is negative, because the height-based fade is unclamped below. -/
theorem particle_update_opacity_below_zero :
    (updateR 100 ⟨0, 99, 0, 30, 0.25, 0.045, 0, 0, 1, 1⟩).opacity < 0 := by
  have h1 : (updateR 100 ⟨0, 99, 0, 30, 0.25, 0.045, 0, 0, 1, 1⟩).opacity ≤
      heightFadeR 100 ((99 : ℝ) + 30) := by
    exact min_le_right _ _
  have h2 : heightFadeR 100 ((99 : ℝ) + 30) < 0 := by
    unfold heightFadeR
    rw [max_eq_right (by norm_num)]
    norm_num
  exact lt_of_le_of_lt h1 h2

/-- Claim C6 (amended): for every particle and every positive viewport
height, the opacity assigned by the update is the minimum of the
velocity-magnitude-based fade and the height-based fade; it is at most 1,
and it lies within [0, 1] whenever the updated vertical position is within
the viewport bound; and the particle is reported alive if and only if its
assigned opacity exceeds 0.1 and its updated vertical position is within
the viewport bound. -/
theorem particle_update_opacity_spec (p : ParticleR) (h : ℝ) (hh : 0 < h) :
    (updateR h p).opacity =
      min (velocityFadeR (updateR h p).vx (updateR h p).vy)
        (heightFadeR h (updateR h p).y) ∧
    (updateR h p).opacity ≤ 1 ∧
    ((updateR h p).y ≤ h → 0 ≤ (updateR h p).opacity ∧ (updateR h p).opacity ≤ 1) ∧
    (aliveR h (updateR h p) ↔
      0.1 < (updateR h p).opacity ∧ (updateR h p).y < h) := by
  have hvf0 : 0 ≤ velocityFadeR (updateR h p).vx (updateR h p).vy := by
    unfold velocityFadeR
    exact le_min zero_le_one (div_nonneg (Real.sqrt_nonneg _) (by norm_num))
  have hvf1 : velocityFadeR (updateR h p).vx (updateR h p).vy ≤ 1 :=
    min_le_left _ _
  have hmin : (updateR h p).opacity =
      min (velocityFadeR (updateR h p).vx (updateR h p).vy)
        (heightFadeR h (updateR h p).y) := rfl
  refine ⟨hmin, ?_, ?_, Iff.rfl⟩
  · rw [hmin]
    exact le_trans (min_le_left _ _) hvf1
  · intro hy
    have hhf0 : 0 ≤ heightFadeR h (updateR h p).y := by
      unfold heightFadeR
      have hpos : 0 < h * 0.05 := by positivity
      have hq : ((updateR h p).y - h * 0.95) / (h * 0.05) ≤ 1 := by
        rw [div_le_one hpos]
        nlinarith
      have : max 0 (((updateR h p).y - h * 0.95) / (h * 0.05)) ≤ 1 :=
        max_le zero_le_one hq
      linarith
    constructor
    · rw [hmin]
      exact le_min hvf0 hhf0
    · rw [hmin]
      exact le_trans (min_le_left _ _) hvf1

/-- Witness for C6 (amended) at a concrete particle and height 100. -/
theorem particle_update_opacity_spec_witness :
    ((0 : ℝ) < 100) ∧
    ((updateR 100 ⟨0, 50, 3, 4, 0.25, 0.045, 0, 0, 1, 1⟩).opacity =
      min (velocityFadeR (updateR 100 ⟨0, 50, 3, 4, 0.25, 0.045, 0, 0, 1, 1⟩).vx
          (updateR 100 ⟨0, 50, 3, 4, 0.25, 0.045, 0, 0, 1, 1⟩).vy)
        (heightFadeR 100 (updateR 100 ⟨0, 50, 3, 4, 0.25, 0.045, 0, 0, 1, 1⟩).y) ∧
      (updateR 100 ⟨0, 50, 3, 4, 0.25, 0.045, 0, 0, 1, 1⟩).opacity ≤ 1 ∧
      ((updateR 100 ⟨0, 50, 3, 4, 0.25, 0.045, 0, 0, 1, 1⟩).y ≤ 100 →
        0 ≤ (updateR 100 ⟨0, 50, 3, 4, 0.25, 0.045, 0, 0, 1, 1⟩).opacity ∧
        (updateR 100 ⟨0, 50, 3, 4, 0.25, 0.045, 0, 0, 1, 1⟩).opacity ≤ 1) ∧
      (aliveR 100 (updateR 100 ⟨0, 50, 3, 4, 0.25, 0.045, 0, 0, 1, 1⟩) ↔
        0.1 < (updateR 100 ⟨0, 50, 3, 4, 0.25, 0.045, 0, 0, 1, 1⟩).opacity ∧
        (updateR 100 ⟨0, 50, 3, 4, 0.25, 0.045, 0, 0, 1, 1⟩).y < 100)) :=
  ⟨by norm_num,
    particle_update_opacity_spec ⟨0, 50, 3, 4, 0.25, 0.045, 0, 0, 1, 1⟩ 100
      (by norm_num)⟩

/-! ## Confetti emitter (fireworks.js, Confetti IIFE) -/

/-- The module-level mutable state of the Confetti IIFE: the live particle
list, the `isAnimating` flag, whether a frame callback is currently
requested (`animationFrame` holds a pending request), and whether the canvas
is attached to the document body. -/
structure ConfettiState where
  particles : List ParticleR
  isAnimating : Bool
  animationFrame : Bool
  canvasAttached : Bool

open Classical in
/-- The filtering pass of `animate` (lines 339-359):
`particles = particles.filter(p => p.update())` — each particle is updated
and kept exactly when the updated particle reports alive. -/
noncomputable def filterAlive (h : ℝ) : List ParticleR → List ParticleR
  | [] => []
  | p :: ps => if aliveR h p then p :: filterAlive h ps else filterAlive h ps

open Classical in
/-- One pass of `animate` (lines 339-359): returns immediately when
`isAnimating` is false; otherwise updates and filters the particle list,
then either requests the next frame (live set non-empty) or clears
`isAnimating` (live set empty). -/
noncomputable def animate (h : ℝ) (s : ConfettiState) : ConfettiState :=
  if s.isAnimating = false then s
  else
    if 0 < (filterAlive h (s.particles.map (updateR h))).length then
      { s with
        particles := filterAlive h (s.particles.map (updateR h))
        animationFrame := true }
    else
      { s with
        particles := filterAlive h (s.particles.map (updateR h))
        isAnimating := false }

/-- `Confetti.cleanup` (lines 400-409): clear `isAnimating`, cancel any
pending frame request, empty the particle list and detach the canvas.
Total — safe to call when already torn down. -/
def confettiCleanup (s : ConfettiState) : ConfettiState :=
  { s with
    isAnimating := false
    animationFrame := false
    particles := []
    canvasAttached := false }

/-- Claim C4: both emitters' cleanups are idempotent — a second call yields
the same state as one call — and one call already reaches the cleaned
observable state: fireworks end-time set to the past timestamp 0 with no
rocket or spark visuals present, and an empty confetti particle set with no
running loop and no pending frame.  Both cleanups are total functions, so
calling them with no activity in progress or when already torn down cannot
raise. -/
theorem cleanup_idempotent (f : FireworksState) (c : ConfettiState) :
    fwCleanup (fwCleanup f) = fwCleanup f ∧
    confettiCleanup (confettiCleanup c) = confettiCleanup c ∧
    (fwCleanup f).endTime = some 0 ∧
    (fwCleanup f).rockets = 0 ∧
    (fwCleanup f).sparks = 0 ∧
    (confettiCleanup c).particles = [] ∧
    (confettiCleanup c).isAnimating = false ∧
    (confettiCleanup c).animationFrame = false :=
  ⟨rfl, rfl, rfl, rfl, rfl, rfl, rfl, rfl⟩


lemma mem_filterAlive {h : ℝ} {l : List ParticleR} {q : ParticleR}
    (hq : q ∈ filterAlive h l) : q ∈ l ∧ aliveR h q := by
  induction l with
  | nil => simp [filterAlive] at hq
  | cons p ps ih =>
    unfold filterAlive at hq
    by_cases hp : aliveR h p
    · rw [if_pos hp] at hq
      rcases List.mem_cons.mp hq with rfl | hmem
      · exact ⟨List.mem_cons_self _ _, hp⟩
      · obtain ⟨h1, h2⟩ := ih hmem
        exact ⟨List.mem_cons_of_mem _ h1, h2⟩
    · rw [if_neg hp] at hq
      obtain ⟨h1, h2⟩ := ih hq
      exact ⟨List.mem_cons_of_mem _ h1, h2⟩

lemma animate_not_animating {h : ℝ} {s : ConfettiState}
    (hs : s.isAnimating = false) : animate h s = s := by
  unfold animate
  rw [if_pos hs]

lemma animate_particles_eq {h : ℝ} {s : ConfettiState}
    (hs : s.isAnimating = true) :
    (animate h s).particles = filterAlive h (s.particles.map (updateR h)) := by
  unfold animate
  rw [if_neg (by simp [hs])]
  by_cases hl : 0 < (filterAlive h (s.particles.map (updateR h))).length
  · rw [if_pos hl]
  · rw [if_neg hl]

lemma animate_halts_on_empty {h : ℝ} {s : ConfettiState}
    (hs : s.isAnimating = true)
    (he : filterAlive h (s.particles.map (updateR h)) = []) :
    (animate h s).isAnimating = false := by
  unfold animate
  rw [if_neg (by simp [hs]), he]
  simp

lemma animate_flag_after {h : ℝ} {s : ConfettiState}
    (hs : s.isAnimating = true) (hf : (animate h s).isAnimating = false) :
    (animate h s).particles = [] := by
  unfold animate at hf ⊢
  rw [if_neg (by simp [hs])] at hf ⊢
  by_cases hl : 0 < (filterAlive h (s.particles.map (updateR h))).length
  · rw [if_pos hl] at hf
    simp [hs] at hf
  · rw [if_neg hl]
    show filterAlive h (s.particles.map (updateR h)) = []
    exact List.length_eq_zero.mp (Nat.eq_zero_of_not_pos hl)

/-- Structure of the iterated loop: if the flag has fallen, the live set is
empty; and every survivor of `j` passes is the `j`-fold update of an
original particle that was alive after each of its first `j` updates. -/
lemma animate_iter_structure (h : ℝ) (s : ConfettiState)
    (hA : s.isAnimating = true) (j : Nat) :
    (((animate h)^[j] s).isAnimating = false → ((animate h)^[j] s).particles = []) ∧
    ∀ q ∈ ((animate h)^[j] s).particles, ∃ p ∈ s.particles,
      q = (updateR h)^[j] p ∧
      ∀ i, 1 ≤ i → i ≤ j → aliveR h ((updateR h)^[i] p) := by
  induction j with
  | zero =>
    constructor
    · intro hf
      rw [Function.iterate_zero_apply] at hf
      rw [hA] at hf
      simp at hf
    · intro q hq
      rw [Function.iterate_zero_apply] at hq
      exact ⟨q, hq, by rw [Function.iterate_zero_apply], fun i h1 h2 => by omega⟩
  | succ j ih =>
    obtain ⟨ihFlag, ihMem⟩ := ih
    by_cases ht : ((animate h)^[j] s).isAnimating = true
    · have hpart : ((animate h)^[j + 1] s).particles =
          filterAlive h ((((animate h)^[j] s).particles).map (updateR h)) := by
        rw [Function.iterate_succ_apply']
        exact animate_particles_eq ht
      constructor
      · intro hf
        rw [Function.iterate_succ_apply'] at hf ⊢
        exact animate_flag_after ht hf
      · intro q hq
        rw [hpart] at hq
        obtain ⟨hqmem, hqalive⟩ := mem_filterAlive hq
        obtain ⟨q0, hq0mem, hq0eq⟩ := List.mem_map.mp hqmem
        obtain ⟨p, hpmem, hpeq, hpalive⟩ := ihMem q0 hq0mem
        refine ⟨p, hpmem, ?_, ?_⟩
        · rw [Function.iterate_succ_apply', ← hpeq, hq0eq]
        · intro i h1 h2
          rcases Nat.lt_or_ge i (j + 1) with hi | hi
          · exact hpalive i h1 (by omega)
          · have hij : i = j + 1 := by omega
            subst hij
            rw [Function.iterate_succ_apply', ← hpeq, hq0eq]
            exact hqalive
    · simp only [Bool.not_eq_true] at ht
      have hstep : (animate h)^[j + 1] s = (animate h)^[j] s := by
        rw [Function.iterate_succ_apply']
        exact animate_not_animating ht
      rw [hstep]
      refine ⟨fun _ => ihFlag ht, ?_⟩
      intro q hq
      rw [ihFlag ht] at hq
      simp at hq

/-- Claim C8: one pass of the confetti frame loop updates each live particle
and removes the ones reporting not-alive; when the live set comes out empty
the animating flag is cleared (no further frame is processed).  Hence, while
no burst is fired, if every particle in the live set dies within at most `n`
updates (an idle period longer than the maximum single-particle lifetime),
then after `n` passes the live set is empty and the loop has halted. -/
theorem confetti_loop_empties_and_halts (h : ℝ) (s : ConfettiState) (n : Nat)
    (hA : s.isAnimating = true) (hn : 1 ≤ n)
    (hd : ∀ p ∈ s.particles, ∃ k, 1 ≤ k ∧ k ≤ n ∧
      ¬ aliveR h ((updateR h)^[k] p)) :
    (∀ t : ConfettiState, t.isAnimating = true →
      (animate h t).particles = filterAlive h (t.particles.map (updateR h))) ∧
    (∀ t : ConfettiState, t.isAnimating = true →
      filterAlive h (t.particles.map (updateR h)) = [] →
        (animate h t).isAnimating = false) ∧
    ((animate h)^[n] s).particles = [] ∧
    ((animate h)^[n] s).isAnimating = false := by
  have hempty : ((animate h)^[n] s).particles = [] := by
    obtain ⟨-, hmem⟩ := animate_iter_structure h s hA n
    rw [List.eq_nil_iff_forall_not_mem]
    intro q hq
    obtain ⟨p, hp, -, halive⟩ := hmem q hq
    obtain ⟨k, hk1, hk2, hdead⟩ := hd p hp
    exact hdead (halive k hk1 hk2)
  have hflag : ((animate h)^[n] s).isAnimating = false := by
    obtain ⟨m, rfl⟩ : ∃ m, n = m + 1 := ⟨n - 1, by omega⟩
    by_cases ht : ((animate h)^[m] s).isAnimating = true
    · rw [Function.iterate_succ_apply'] at hempty ⊢
      rw [animate_particles_eq ht] at hempty
      exact animate_halts_on_empty ht hempty
    · simp only [Bool.not_eq_true] at ht
      rw [Function.iterate_succ_apply', animate_not_animating ht]
      exact ht
  exact ⟨fun t htt => animate_particles_eq htt,
    fun t htt he => animate_halts_on_empty htt he, hempty, hflag⟩

/-- Witness for C8: a single particle one tick from crossing the bottom of a
height-100 viewport (it dies at its first update); after one pass the live
set is empty and the loop has halted. -/
theorem confetti_loop_empties_and_halts_witness :
    (⟨[⟨0, 99, 0, 30, 0.25, 0.045, 0, 0, 1, 1⟩], true, false, true⟩ :
      ConfettiState).isAnimating = true ∧
    1 ≤ 1 ∧
    (∀ p ∈ (⟨[⟨0, 99, 0, 30, 0.25, 0.045, 0, 0, 1, 1⟩], true, false, true⟩ :
        ConfettiState).particles,
      ∃ k, 1 ≤ k ∧ k ≤ 1 ∧ ¬ aliveR 100 ((updateR 100)^[k] p)) ∧
    ((animate 100)^[1]
        (⟨[⟨0, 99, 0, 30, 0.25, 0.045, 0, 0, 1, 1⟩], true, false, true⟩ :
          ConfettiState)).particles = [] ∧
    ((animate 100)^[1]
        (⟨[⟨0, 99, 0, 30, 0.25, 0.045, 0, 0, 1, 1⟩], true, false, true⟩ :
          ConfettiState)).isAnimating = false := by
  have hd : ∀ p ∈ (⟨[⟨0, 99, 0, 30, 0.25, 0.045, 0, 0, 1, 1⟩], true, false, true⟩ :
      ConfettiState).particles,
      ∃ k, 1 ≤ k ∧ k ≤ 1 ∧ ¬ aliveR 100 ((updateR 100)^[k] p) := by
    intro p hp
    rcases List.mem_singleton.mp hp with rfl
    refine ⟨1, le_refl 1, le_refl 1, ?_⟩
    rw [Function.iterate_one]
    intro hal
    have hy : (updateR 100
        (⟨0, 99, 0, 30, 0.25, 0.045, 0, 0, 1, 1⟩ : ParticleR)).y = 129 := by
      norm_num [updateR]
    have h2 : (updateR 100
        (⟨0, 99, 0, 30, 0.25, 0.045, 0, 0, 1, 1⟩ : ParticleR)).y < 100 := hal.2
    rw [hy] at h2
    norm_num at h2
  have hmain := confetti_loop_empties_and_halts 100
    (⟨[⟨0, 99, 0, 30, 0.25, 0.045, 0, 0, 1, 1⟩], true, false, true⟩ :
      ConfettiState) 1 rfl (le_refl 1) hd
  exact ⟨rfl, le_refl 1, hd, hmain.2.2.1, hmain.2.2.2⟩

/-! ## Confetti burst scheduling (MMM-Birthday.js, startConfetti) -/

/-- The guard of the `fireBurst` callback in `startConfetti` (lines
266-281): `this.celebrating && (isInfinite || Date.now() < end)`.
`celebratingAt` is the value of the session's `celebrating` flag read at the
callback's run time. -/
def confettiCond (celebratingAt : ℚ → Bool) (isInfinite : Bool) (endTime : ℚ)
    (now : ℚ) : Bool :=
  celebratingAt now && (isInfinite || decide (now < endTime))

/-- The self-rescheduling `fireBurst` chain of `startConfetti`: from time
`now`, with the observed random draws `rs` (each in [0, 1)), the list of
times at which `Confetti.fire()` runs.  A passing check fires a burst and
reschedules itself after `2000 + Math.random() * 6000` milliseconds; a
failing check fires nothing and stops rescheduling. -/
def fireBurstChain (celebratingAt : ℚ → Bool) (isInfinite : Bool)
    (endTime : ℚ) : ℚ → List ℚ → List ℚ
  | now, [] => if confettiCond celebratingAt isInfinite endTime now then [now] else []
  | now, r :: rs =>
    if confettiCond celebratingAt isInfinite endTime now then
      now :: fireBurstChain celebratingAt isInfinite endTime
        (now + (2000 + r * 6000)) rs
    else []

lemma fireBurstChain_mem (celebratingAt : ℚ → Bool) (isInfinite : Bool)
    (endTime : ℚ) (now : ℚ) (rs : List ℚ) :
    ∀ t ∈ fireBurstChain celebratingAt isInfinite endTime now rs,
      celebratingAt t = true ∧ (isInfinite = true ∨ t < endTime) := by
  induction rs generalizing now with
  | nil =>
    intro t ht
    unfold fireBurstChain at ht
    by_cases hc : confettiCond celebratingAt isInfinite endTime now = true
    · rw [if_pos hc] at ht
      rcases List.mem_singleton.mp ht with rfl
      unfold confettiCond at hc
      rw [Bool.and_eq_true, Bool.or_eq_true, decide_eq_true_iff] at hc
      exact ⟨hc.1, hc.2⟩
    · rw [if_neg hc] at ht
      simp at ht
  | cons r rs ih =>
    intro t ht
    unfold fireBurstChain at ht
    by_cases hc : confettiCond celebratingAt isInfinite endTime now = true
    · rw [if_pos hc] at ht
      rcases List.mem_cons.mp ht with rfl | hmem
      · unfold confettiCond at hc
        rw [Bool.and_eq_true, Bool.or_eq_true, decide_eq_true_iff] at hc
        exact ⟨hc.1, hc.2⟩
      · exact ih (now + (2000 + r * 6000)) t hmem
    · rw [if_neg hc] at ht
      simp at ht

/-- Claim C7: the confetti burst chain fires a burst only while the
session's `celebrating` flag is still true and the confetti end-time (or
the infinite sentinel) has not passed; when the guard fails the chain fires
nothing and stops rescheduling; and after a passing check the next burst is
scheduled after a delay of `2000 + r * 6000` milliseconds, which lies in
the 2-8 second range for every random draw `r` in [0, 1). -/
theorem confetti_chain_guard_and_delay (celebratingAt : ℚ → Bool)
    (isInfinite : Bool) (endTime now r : ℚ) (rs : List ℚ)
    (hr0 : 0 ≤ r) (hr1 : r < 1) :
    (∀ t ∈ fireBurstChain celebratingAt isInfinite endTime now rs,
      celebratingAt t = true ∧ (isInfinite = true ∨ t < endTime)) ∧
    (confettiCond celebratingAt isInfinite endTime now = false →
      fireBurstChain celebratingAt isInfinite endTime now rs = []) ∧
    (confettiCond celebratingAt isInfinite endTime now = true →
      fireBurstChain celebratingAt isInfinite endTime now (r :: rs) =
        now :: fireBurstChain celebratingAt isInfinite endTime
          (now + (2000 + r * 6000)) rs) ∧
    2000 ≤ 2000 + r * 6000 ∧ 2000 + r * 6000 < 8000 := by
  refine ⟨fireBurstChain_mem celebratingAt isInfinite endTime now rs, ?_, ?_, ?_, ?_⟩
  · intro hc
    cases rs with
    | nil => unfold fireBurstChain; rw [hc]; simp
    | cons r0 rs => unfold fireBurstChain; rw [hc]; simp
  · intro hc
    unfold fireBurstChain
    rw [if_pos hc]
    cases rs with
    | nil => rfl
    | cons r0 rs0 => rfl
  · nlinarith
  · nlinarith

/-- Witness for C7: an always-celebrating session with a finite end-time of
10000 ms, started at time 0, one random draw of 1/2. -/
theorem confetti_chain_guard_and_delay_witness :
    ((0 : ℚ) ≤ 1 / 2) ∧ ((1 / 2 : ℚ) < 1) ∧
    ((∀ t ∈ fireBurstChain (fun _ => true) false 10000 0 [],
      (fun _ : ℚ => true) t = true ∧ (false = true ∨ t < 10000)) ∧
    (confettiCond (fun _ => true) false 10000 0 = false →
      fireBurstChain (fun _ => true) false 10000 0 [] = []) ∧
    (confettiCond (fun _ => true) false 10000 0 = true →
      fireBurstChain (fun _ => true) false 10000 0 [1 / 2] =
        0 :: fireBurstChain (fun _ => true) false 10000
          (0 + (2000 + 1 / 2 * 6000)) []) ∧
    2000 ≤ 2000 + (1 / 2 : ℚ) * 6000 ∧ 2000 + (1 / 2 : ℚ) * 6000 < 8000) :=
  ⟨by norm_num, by norm_num,
    confetti_chain_guard_and_delay (fun _ => true) false 10000 0 (1 / 2) []
      (by norm_num) (by norm_num)⟩
